import Mathlib

/-!
Verification of the castor launcher (src/launcher.c, src/config.h).

The development shallowly embeds the core of the program:
the line-buffer editing operations, the viewport-scroll recompute
inside `draw`, the key/event dispatch loop of `main`, and the
startup resource-acquisition sequence.  Machine `int` values that
can go negative (pixel extents, scroll offsets) are `Int`; byte
counts and buffer indices are `Nat`; the 256-byte `input` array is
a `List Nat` of length `input_max`.
-/

set_option maxRecDepth 8000

namespace Castor

/-- config.h: `input_max = 256`, the size of the `input` array. -/
def input_max : Nat := 256

/-- config.h: `win_width = 600`. -/
def win_width : Nat := 600

/-- launcher.c line 70: `avail_w = (int)win_width - 20` (10px padding on
each side). -/
def avail_w : Int := (win_width : Int) - 20

/-- launcher.c lines 73-81, the scroll adjustment inside `draw`:
source variables `scroll_x`, `ext_cursor.xOff` (`curW`) and `text_w`
(`textW`).  First the two-branch adjustment, then the two clamping
`if`s. -/
def recomputeScroll (scrollX curW textW : Int) : Int :=
  let s1 := if curW - scrollX > avail_w then curW - avail_w
            else if curW - scrollX < 0 then curW
            else scrollX
  let s2 := if s1 < 0 then 0 else s1
  if s2 > textW then textW else s2

/-- Spec-side transcription (for the refinement claim) of the §4.2
scroll policy: step 1 scroll right, step 2 scroll left, step 3 clamp
the result to `[0, totalExtent]`. -/
def specScrollPolicy (scrollOffset cursorExtent totalExtent : Int) : Int :=
  let adjusted :=
    if cursorExtent - scrollOffset > avail_w then cursorExtent - avail_w
    else if cursorExtent - scrollOffset < 0 then cursorExtent
    else scrollOffset
  max 0 (min adjusted totalExtent)

/-- launcher.c lines 52-81: the part of `draw` that computes the new
`scroll_x`.  `m` is the text-metrics collaborator (`XftTextExtentsUtf8`):
it returns the extent (`xOff`) of a byte sequence.  `text_w` is 0 when
`inlen == 0` and `ext_cursor` is zeroed when `cursor == 0`, exactly as
in the source. -/
def drawScroll (m : List Nat → Int) (arr : List Nat) (cursor inlen : Nat)
    (scrollX : Int) : Int :=
  let textW := if 0 < inlen then m (arr.take inlen) else 0
  let curW := if 0 < cursor then m (arr.take cursor) else 0
  recomputeScroll scrollX curW textW

/-- launcher.c lines 289-297: insertion of the `XLookupString` bytes at
the cursor.  Guard `len > 0 && inlen + len < (int)input_max - 1`;
on success `memmove` shifts `input[cursor..inlen]` (the tail plus the
terminator, `inlen - cursor + 1` bytes) right by `len`, `memcpy` writes
the new bytes at `cursor`, and cursor and length advance by `len`.
Bytes of the array beyond `inlen + len` keep their old values. -/
def insertOp (arr : List Nat) (cursor inlen : Nat) (bs : List Nat) :
    List Nat × Nat × Nat :=
  if 0 < bs.length ∧ inlen + bs.length < input_max - 1 then
    (arr.take cursor ++ bs ++ (arr.drop cursor).take (inlen - cursor + 1)
       ++ arr.drop (inlen + bs.length + 1),
     cursor + bs.length, inlen + bs.length)
  else (arr, cursor, inlen)

/-- launcher.c lines 244-249: backspace.  Guard `cursor > 0`; `memmove`
shifts `input[cursor..inlen]` (tail plus terminator) left by one, and
cursor and length decrement.  Bytes at positions `inlen` and beyond
keep their old values. -/
def deleteOp (arr : List Nat) (cursor inlen : Nat) : List Nat × Nat × Nat :=
  if 0 < cursor then
    (arr.take (cursor - 1) ++ (arr.drop cursor).take (inlen - cursor + 1)
       ++ arr.drop inlen,
     cursor - 1, inlen - 1)
  else (arr, cursor, inlen)

/-- The value `printf("%s\n", input)` prints and `execl` receives: the
bytes of the array up to the first NUL. -/
def cstring (arr : List Nat) : List Nat :=
  arr.takeWhile (fun b => b != 0)

/-- Observable side effects of one dispatch step: a line written to
standard output, or an invocation of the command-execution collaborator
(`run_command` forking `/bin/sh -c text`). -/
inductive Effect where
  | printLine (text : List Nat)
  | execCmd (text : List Nat)
  deriving DecidableEq, Repr

/-- launcher.c lines 96-119, `run_command`: returns without forking when
the string is empty (`*input == '\0'`), otherwise launches the detached
child.  Fork failure is a warning with no further effect on the session
and is not modelled. -/
def run_command (text : List Nat) : List Effect :=
  if text = [] then [] else [Effect.execCmd text]

/-- Session outcome, following the spec state machine: `running` while
the event loop continues; Enter exits the loop through the
confirmation branch, Escape and the WM close message exit through
cancellation. -/
inductive Mode where
  | running
  | confirmed
  | cancelled
  deriving DecidableEq, Repr

/-- The mutable state of `main`'s event loop: the `input` array, the
`cursor` and `inlen` counters, `scroll_x`, the `focused` flag, and the
loop/exit status. -/
structure LState where
  input : List Nat
  cursor : Nat
  inlen : Nat
  scrollX : Int
  focused : Bool
  mode : Mode
  deriving DecidableEq, Repr

/-- launcher.c lines 201-206: the state right after initialization. -/
def initState : LState :=
  { input := List.replicate input_max 0
    cursor := 0
    inlen := 0
    scrollX := 0
    focused := false
    mode := Mode.running }

/-- The key categories distinguished by the `KeyPress` dispatch in
launcher.c lines 228-302, in source order: Escape, Return/KP_Enter,
BackSpace, Left, Right, Home, End, Ctrl-U, and the fallback branch
carrying the bytes `XLookupString` translated. -/
inductive Key where
  | escape
  | enter
  | backspace
  | left
  | right
  | home
  | endKey
  | ctrlU
  | other (bs : List Nat)
  deriving DecidableEq, Repr

/-- The events handled by the `switch` in launcher.c lines 210-304. -/
inductive Event where
  | expose
  | focusOut
  | clientMessage (isDeleteWindow : Bool)
  | keyPress (k : Key)
  deriving DecidableEq, Repr

/-- launcher.c lines 230-302: the `KeyPress` dispatch.  Each branch
mirrors its source branch, including which branches call `draw` (and
thus recompute `scroll_x`). -/
def keyStep (m : List Nat → Int) (st : LState) (k : Key) :
    LState × List Effect :=
  match k with
  | Key.escape => ({ st with mode := Mode.cancelled }, [])
  | Key.enter =>
      if 0 < st.inlen then
        let arr := st.input.set st.inlen 0
        let text := cstring arr
        ({ st with input := arr, mode := Mode.confirmed },
         Effect.printLine text :: run_command text)
      else ({ st with mode := Mode.confirmed }, [])
  | Key.backspace =>
      if 0 < st.cursor then
        let r := deleteOp st.input st.cursor st.inlen
        ({ st with input := r.1, cursor := r.2.1, inlen := r.2.2,
                   scrollX := drawScroll m r.1 r.2.1 r.2.2 st.scrollX }, [])
      else (st, [])
  | Key.left =>
      let c := if 0 < st.cursor then st.cursor - 1 else st.cursor
      ({ st with cursor := c,
                 scrollX := drawScroll m st.input c st.inlen st.scrollX }, [])
  | Key.right =>
      let c := if st.cursor < st.inlen then st.cursor + 1 else st.cursor
      ({ st with cursor := c,
                 scrollX := drawScroll m st.input c st.inlen st.scrollX }, [])
  | Key.home =>
      if st.cursor ≠ 0 then
        ({ st with cursor := 0,
                   scrollX := drawScroll m st.input 0 st.inlen st.scrollX }, [])
      else (st, [])
  | Key.endKey =>
      if st.cursor ≠ st.inlen then
        ({ st with cursor := st.inlen,
                   scrollX := drawScroll m st.input st.inlen st.inlen st.scrollX },
         [])
      else (st, [])
  | Key.ctrlU =>
      let arr := st.input.set 0 0
      ({ st with input := arr, cursor := 0, inlen := 0,
                 scrollX := drawScroll m arr 0 0 0 }, [])
  | Key.other bs =>
      if 0 < bs.length ∧ st.inlen + bs.length < input_max - 1 then
        let r := insertOp st.input st.cursor st.inlen bs
        ({ st with input := r.1, cursor := r.2.1, inlen := r.2.2,
                   scrollX := drawScroll m r.1 r.2.1 r.2.2 st.scrollX }, [])
      else (st, [])

/-- One iteration of the event loop body (launcher.c lines 208-305).
`m` is the text-metrics collaborator used by `draw`. -/
def step (m : List Nat → Int) (st : LState) (e : Event) :
    LState × List Effect :=
  match e with
  | Event.expose =>
      let st1 := if ¬st.focused then { st with focused := true } else st
      ({ st1 with
          scrollX := drawScroll m st1.input st1.cursor st1.inlen st1.scrollX },
       [])
  | Event.focusOut => (st, [])
  | Event.clientMessage isDel =>
      (if isDel then { st with mode := Mode.cancelled } else st, [])
  | Event.keyPress k => keyStep m st k

/-- Iterated dispatch: fold the loop body over a list of events. -/
def runEvents (m : List Nat → Int) (st : LState) (es : List Event) : LState :=
  es.foldl (fun s e => (step m s e).1) st

/-- The buffer invariant of the spec data model: the array has its
declared size, `0 ≤ cursor ≤ inlen < input_max`, and the byte at
`inlen` is the NUL terminator. -/
def Inv (st : LState) : Prop :=
  st.input.length = input_max ∧ st.cursor ≤ st.inlen ∧
    st.inlen < input_max ∧ st.input[st.inlen]? = some 0

instance (st : LState) : Decidable (Inv st) := by
  unfold Inv; infer_instance

/-! Startup resource acquisition (launcher.c lines 142-199). -/

/-- Outcomes of the external X/Xft collaborator calls made during
startup, plus the pixel values a successful color lookup would return
and the screen's black pixel. -/
structure XEnv where
  displayOk : Bool
  parseOkBg : Bool
  allocOkBg : Bool
  pixelBg : Nat
  parseOkFg : Bool
  allocOkFg : Bool
  pixelFg : Nat
  fontOk : Bool
  xftAllocOk : Bool
  drawCreateOk : Bool
  blackPixel : Nat
  deriving DecidableEq, Repr

/-- The `errx` aborts during startup, in source order. -/
inductive StartupError where
  | noDisplay
  | noFont
  | noXftColor
  | noDraw
  deriving DecidableEq, Repr

/-- launcher.c lines 19-35, `parse_color`: returns the looked-up pixel,
or `BlackPixel` with a `warnx` warning when `XParseColor` or
`XAllocColor` fails.  Result: (pixel, warned). -/
def parse_color (blackPixel : Nat) (parseOk allocOk : Bool) (pixel : Nat) :
    Nat × Bool :=
  if ¬parseOk then (blackPixel, true)
  else if ¬allocOk then (blackPixel, true)
  else (pixel, false)

/-- What startup produces when it survives: the window background and
border pixels and whether each color lookup warned. -/
structure StartupResult where
  bg : Nat
  border : Nat
  bgWarned : Bool
  borderWarned : Bool
  deriving DecidableEq, Repr

/-- launcher.c lines 148-199: the startup sequence.  `XOpenDisplay`
failure aborts; the two `parse_color` calls (for `bg_color` and
`fg_color`) never abort; `XftFontOpenName` failure aborts;
`XftColorAllocName` failure for `fg_color` aborts; `XftDrawCreate`
failure aborts. -/
def startup (env : XEnv) : Except StartupError StartupResult :=
  if ¬env.displayOk then Except.error StartupError.noDisplay
  else
    let bg := parse_color env.blackPixel env.parseOkBg env.allocOkBg env.pixelBg
    let border := parse_color env.blackPixel env.parseOkFg env.allocOkFg env.pixelFg
    if ¬env.fontOk then Except.error StartupError.noFont
    else if ¬env.xftAllocOk then Except.error StartupError.noXftColor
    else if ¬env.drawCreateOk then Except.error StartupError.noDraw
    else Except.ok { bg := bg.1, border := border.1,
                     bgWarned := bg.2, borderWarned := border.2 }

/-! Helper lemmas about the buffer operations. -/

/-- Structure of a successful insertion: array size is preserved, the
first `inlen + len` bytes are prefix ++ inserted bytes ++ shifted tail,
and the byte now at `inlen + len` is the byte that was at `inlen` (the
terminator travels with the tail). -/
theorem insertOp_spec (arr : List Nat) (c n : Nat) (bs : List Nat)
    (hlen : arr.length = input_max) (hcn : c ≤ n) (hn : n < input_max)
    (hbs : 0 < bs.length) (hcap : n + bs.length < input_max - 1) :
    (insertOp arr c n bs).1.length = input_max ∧
    (insertOp arr c n bs).1.take (n + bs.length) =
      arr.take c ++ bs ++ (arr.take n).drop c ∧
    (insertOp arr c n bs).1[n + bs.length]? = arr[n]? := by
  have h256 : arr.length = 256 := by simpa [input_max] using hlen
  have hn' : n < 256 := by simpa [input_max] using hn
  have hcap' : n + bs.length < 255 := by
    have := hcap; simp [input_max] at this; omega
  have hgd : 0 < bs.length ∧ n + bs.length < input_max - 1 := ⟨hbs, hcap⟩
  unfold insertOp
  rw [if_pos hgd]
  dsimp only
  have lA : (arr.take c).length = c := by simp [List.length_take, h256]; omega
  have lS2 : ((arr.drop c).take (n - c + 1)).length = n - c + 1 := by
    simp [List.length_take, List.length_drop, h256]; omega
  refine ⟨?_, ?_, ?_⟩
  · simp only [List.length_append, List.length_take, List.length_drop, h256,
      input_max]
    omega
  · simp only [List.append_assoc]
    rw [List.take_append_eq_append_take, lA,
      List.take_of_length_le (by rw [lA]; omega),
      List.take_append_eq_append_take,
      List.take_of_length_le (show bs.length ≤ n + bs.length - c by omega)]
    have e1 : n + bs.length - c - bs.length = n - c := by omega
    rw [e1, List.take_append_eq_append_take, List.take_take, lS2]
    have e2 : (n - c) ⊓ (n - c + 1) = n - c := by omega
    have e3 : n - c - (n - c + 1) = 0 := by omega
    rw [e2, e3, List.take_zero, List.append_nil, List.drop_take]
  · simp only [List.append_assoc]
    rw [List.getElem?_append_right (by rw [lA]; omega), lA,
      List.getElem?_append_right (show bs.length ≤ n + bs.length - c by omega)]
    have e1 : n + bs.length - c - bs.length = n - c := by omega
    rw [e1, List.getElem?_append, if_pos (by rw [lS2]; omega),
      List.getElem?_take, if_pos (by omega), List.getElem?_drop]
    have e2 : c + (n - c) = n := by omega
    rw [e2]

/-- Structure of a (guarded) backspace: array size is preserved, the
first `inlen - 1` bytes are prefix without the byte at `cursor - 1`
followed by the shifted tail, and the byte now at `inlen - 1` is the
byte that was at `inlen` (the shifted terminator). -/
theorem deleteOp_spec (arr : List Nat) (c n : Nat)
    (hlen : arr.length = input_max) (hc : 0 < c) (hcn : c ≤ n)
    (hn : n < input_max) :
    (deleteOp arr c n).1.length = input_max ∧
    (deleteOp arr c n).1.take (n - 1) =
      arr.take (c - 1) ++ (arr.take n).drop c ∧
    (deleteOp arr c n).1[n - 1]? = arr[n]? := by
  have h256 : arr.length = 256 := by simpa [input_max] using hlen
  have hn' : n < 256 := by simpa [input_max] using hn
  unfold deleteOp
  rw [if_pos hc]
  dsimp only
  have lA : (arr.take (c - 1)).length = c - 1 := by
    simp [List.length_take, h256]; omega
  have lS2 : ((arr.drop c).take (n - c + 1)).length = n - c + 1 := by
    simp [List.length_take, List.length_drop, h256]; omega
  refine ⟨?_, ?_, ?_⟩
  · simp only [List.length_append, List.length_take, List.length_drop, h256,
      input_max]
    omega
  · simp only [List.append_assoc]
    rw [List.take_append_eq_append_take, lA,
      List.take_of_length_le (by rw [lA]; omega),
      List.take_append_eq_append_take, List.take_take, lS2]
    have e1 : (n - 1 - (c - 1)) ⊓ (n - c + 1) = n - c := by omega
    have e2 : n - 1 - (c - 1) - (n - c + 1) = 0 := by omega
    rw [e1, e2, List.take_zero, List.append_nil, List.drop_take]
  · simp only [List.append_assoc]
    rw [List.getElem?_append_right (by rw [lA]; omega), lA,
      List.getElem?_append, if_pos (by rw [lS2]; omega),
      List.getElem?_take, if_pos (by omega), List.getElem?_drop]
    have e2 : c + (n - 1 - (c - 1)) = n := by omega
    rw [e2]

/-- Cursor and length after a successful insertion. -/
theorem insertOp_counters (arr : List Nat) (c n : Nat) (bs : List Nat)
    (h : 0 < bs.length ∧ n + bs.length < input_max - 1) :
    (insertOp arr c n bs).2 = (c + bs.length, n + bs.length) := by
  unfold insertOp; rw [if_pos h]

/-- Cursor and length after a guarded backspace. -/
theorem deleteOp_counters (arr : List Nat) (c n : Nat) (h : 0 < c) :
    (deleteOp arr c n).2 = (c - 1, n - 1) := by
  unfold deleteOp; rw [if_pos h]

/-- Every single dispatch step preserves the buffer invariant. -/
theorem step_preserves_inv (m : List Nat → Int) (st : LState) (e : Event)
    (hinv : Inv st) : Inv (step m st e).1 := by
  obtain ⟨hlen, hcn, hn, hterm⟩ := hinv
  have hlt : st.inlen < st.input.length := by rw [hlen]; exact hn
  cases e with
  | expose =>
      by_cases hf : st.focused <;>
        simp only [step, hf] <;> exact ⟨hlen, hcn, hn, hterm⟩
  | focusOut => exact ⟨hlen, hcn, hn, hterm⟩
  | clientMessage b =>
      cases b <;> exact ⟨hlen, hcn, hn, hterm⟩
  | keyPress k =>
      cases k with
      | escape => exact ⟨hlen, hcn, hn, hterm⟩
      | enter =>
          simp only [step, keyStep]
          split_ifs with h0
          · exact ⟨by simp [hlen], hcn, hn, List.getElem?_set_self hlt⟩
          · exact ⟨hlen, hcn, hn, hterm⟩
      | backspace =>
          simp only [step, keyStep]
          split_ifs with h0
          · obtain ⟨hL, hT, hG⟩ :=
              deleteOp_spec st.input st.cursor st.inlen hlen h0 hcn hn
            have hc := deleteOp_counters st.input st.cursor st.inlen h0
            refine ⟨hL, ?_, ?_, ?_⟩
            · dsimp only; rw [hc]; dsimp only; omega
            · dsimp only; rw [hc]; dsimp only; omega
            · dsimp only; rw [hc]; dsimp only; rw [hG]; exact hterm
          · exact ⟨hlen, hcn, hn, hterm⟩
      | left =>
          simp only [step, keyStep]
          exact ⟨hlen, by dsimp only; split_ifs <;> omega, hn, hterm⟩
      | right =>
          simp only [step, keyStep]
          exact ⟨hlen, by dsimp only; split_ifs <;> omega, hn, hterm⟩
      | home =>
          simp only [step, keyStep]
          split_ifs with h0
          · exact ⟨hlen, Nat.zero_le _, hn, hterm⟩
          · exact ⟨hlen, hcn, hn, hterm⟩
      | endKey =>
          simp only [step, keyStep]
          split_ifs with h0
          · exact ⟨hlen, le_refl _, hn, hterm⟩
          · exact ⟨hlen, hcn, hn, hterm⟩
      | ctrlU =>
          simp only [step, keyStep]
          refine ⟨by simp [hlen], Nat.zero_le _, by simp [input_max], ?_⟩
          exact List.getElem?_set_self (by omega)
      | other bs =>
          simp only [step, keyStep]
          split_ifs with hg
          · obtain ⟨hL, hT, hG⟩ :=
              insertOp_spec st.input st.cursor st.inlen bs hlen hcn hn hg.1 hg.2
            have hc := insertOp_counters st.input st.cursor st.inlen bs hg
            refine ⟨hL, ?_, ?_, ?_⟩
            · dsimp only; rw [hc]; dsimp only; omega
            · dsimp only; rw [hc]; dsimp only; have := hg.2; omega
            · dsimp only; rw [hc]; dsimp only; rw [hG]; exact hterm
          · exact ⟨hlen, hcn, hn, hterm⟩

/-- Iterated dispatch preserves the buffer invariant. -/
theorem runEvents_preserves_inv (m : List Nat → Int) (st : LState)
    (es : List Event) (hinv : Inv st) : Inv (runEvents m st es) := by
  induction es generalizing st with
  | nil => exact hinv
  | cons e es ih => exact ih _ (step_preserves_inv m st e hinv)

/-- Writing the terminator at position `n` and reading the C string
back yields exactly the first `n` bytes, provided none of them is NUL. -/
theorem cstring_set_terminator (l : List Nat) (n : Nat) (hn : n < l.length)
    (h : ∀ x ∈ l.take n, x ≠ 0) :
    cstring (l.set n 0) = l.take n := by
  induction l generalizing n with
  | nil => simp at hn
  | cons a t ih =>
      cases n with
      | zero => simp [cstring]
      | succ m =>
          have ha : a ≠ 0 := h a (by simp)
          have hrec := ih m (by simpa using hn)
            (fun x hx => h x (by simp [hx]))
          simp only [List.set_cons_succ, cstring, List.takeWhile_cons,
            List.take_succ_cons] at hrec ⊢
          simp [ha, hrec]

/-! The claims. -/

/-- C1: dispatching a printable-input event with a non-empty byte string
is a silent no-op (buffer, length, cursor, scroll, mode all unchanged,
no effects) when `inlen + len(bytes) ≥ input_max - 1`; otherwise it
shifts the tail right, copies the bytes in at the cursor, advances
cursor and length by `len(bytes)`, and preserves the terminator
invariant, for every buffer state satisfying the invariant. -/
theorem insert_event_spec (m : List Nat → Int) (st : LState) (bs : List Nat)
    (hinv : Inv st) (hbs : bs ≠ []) :
    (input_max - 1 ≤ st.inlen + bs.length →
      step m st (Event.keyPress (Key.other bs)) = (st, [])) ∧
    (st.inlen + bs.length < input_max - 1 →
      (step m st (Event.keyPress (Key.other bs))).1.cursor
          = st.cursor + bs.length ∧
      (step m st (Event.keyPress (Key.other bs))).1.inlen
          = st.inlen + bs.length ∧
      (step m st (Event.keyPress (Key.other bs))).1.input.take
          (st.inlen + bs.length)
        = st.input.take st.cursor ++ bs
            ++ (st.input.take st.inlen).drop st.cursor ∧
      (step m st (Event.keyPress (Key.other bs))).1.input[
          st.inlen + bs.length]? = some 0 ∧
      (step m st (Event.keyPress (Key.other bs))).1.mode = st.mode ∧
      (step m st (Event.keyPress (Key.other bs))).2 = []) := by
  obtain ⟨hlen, hcn, hn, hterm⟩ := hinv
  have hbs' : 0 < bs.length := List.length_pos.mpr hbs
  constructor
  · intro h
    simp only [step, keyStep]
    rw [if_neg (by omega)]
  · intro h
    have hg : 0 < bs.length ∧ st.inlen + bs.length < input_max - 1 := ⟨hbs', h⟩
    obtain ⟨hL, hT, hG⟩ :=
      insertOp_spec st.input st.cursor st.inlen bs hlen hcn hn hbs' h
    have hc := insertOp_counters st.input st.cursor st.inlen bs hg
    simp only [step, keyStep]
    rw [if_pos hg]
    refine ⟨?_, ?_, ?_, ?_, rfl, rfl⟩
    · dsimp only; rw [hc]
    · dsimp only; rw [hc]
    · dsimp only; exact hT
    · dsimp only; rw [hG]; exact hterm

/-- Witness for C1: inserting two bytes into the fresh empty buffer
advances cursor and length to 2 and keeps the terminator at index 2. -/
theorem insert_event_spec_witness :
    (step (fun _ => 0) initState
      (Event.keyPress (Key.other [104, 105]))).1.cursor = 2 ∧
    (step (fun _ => 0) initState
      (Event.keyPress (Key.other [104, 105]))).1.inlen = 2 ∧
    (step (fun _ => 0) initState
      (Event.keyPress (Key.other [104, 105]))).1.input[2]? = some 0 := by
  have h := insert_event_spec (fun _ => 0) initState [104, 105]
    (by decide) (by decide)
  obtain ⟨hc, hi, ht, hg, hm, he⟩ := h.2 (by decide)
  exact ⟨hc, hi, hg⟩

/-- C2 counterexample: the claim says an insert reaching
`length + insertedLen = capacity - 1` succeeds; the code's guard
`inlen + len < input_max - 1` rejects exactly that sum.  At
`inlen = 254`, inserting one byte gives `254 + 1 = input_max - 1`, and
the operation is a silent no-op on a valid buffer. -/
theorem capacity_boundary_counterexample :
    254 + 1 = input_max - 1 ∧
    (List.replicate 256 0).length = input_max ∧
    (List.replicate 256 0)[254]? = some 0 ∧
    insertOp (List.replicate 256 0) 254 254 [65]
      = (List.replicate 256 0, 254, 254) := by
  refine ⟨rfl, by decide, by decide, rfl⟩

/-- C2 (amended): an insert with `length + insertedLen ≤ capacity - 2`
(that is, `< capacity - 1`) succeeds, advancing cursor and length;
an insert with `length + insertedLen = capacity - 1` or greater is
rejected with no state change. -/
theorem capacity_boundary_amended (arr : List Nat) (c n : Nat)
    (bs : List Nat) (hbs : 0 < bs.length) :
    (n + bs.length < input_max - 1 →
      (insertOp arr c n bs).2.1 = c + bs.length ∧
      (insertOp arr c n bs).2.2 = n + bs.length) ∧
    (input_max - 1 ≤ n + bs.length →
      insertOp arr c n bs = (arr, c, n)) := by
  constructor
  · intro h
    rw [insertOp_counters arr c n bs ⟨hbs, h⟩]
    exact ⟨rfl, rfl⟩
  · intro h
    unfold insertOp
    rw [if_neg (by omega)]

/-- Witness for C2 (amended): at `inlen = 253` one byte still fits
(`253 + 1 = input_max - 2`), at `inlen = 254` it is rejected
(`254 + 1 = input_max - 1`). -/
theorem capacity_boundary_amended_witness :
    (insertOp (List.replicate 256 0) 0 253 [65]).2.2 = 254 ∧
    insertOp (List.replicate 256 0) 0 254 [65]
      = (List.replicate 256 0, 0, 254) := by
  have h1 := capacity_boundary_amended (List.replicate 256 0) 0 253 [65]
    (by decide)
  have h2 := capacity_boundary_amended (List.replicate 256 0) 0 254 [65]
    (by decide)
  exact ⟨(h1.1 (by decide)).2, h2.2 (by decide)⟩

/-- C3: the scroll recompute in `draw` implements exactly the three-step
greedy policy of the spec (scroll right to reveal, scroll left to align,
clamp to `[0, totalExtent]`), with `avail_w = win_width - 20`, for every
prior offset `≥ 0` and every `0 ≤ cursorExtent ≤ totalExtent`. -/
theorem scroll_recompute_refines_spec (s c t : Int)
    (hs : 0 ≤ s) (hc : 0 ≤ c) (hct : c ≤ t) :
    recomputeScroll s c t = specScrollPolicy s c t := by
  simp only [recomputeScroll, specScrollPolicy, avail_w, win_width]
  split_ifs <;> omega

/-- Witness for C3: the two policies agree at offset 5 with the cursor
at extent 600 of 700. -/
theorem scroll_recompute_refines_spec_witness :
    recomputeScroll 5 600 700 = specScrollPolicy 5 600 700 :=
  scroll_recompute_refines_spec 5 600 700 (by decide) (by decide) (by decide)

/-- C4 counterexample: the claim says that whenever
`totalExtent < availableWidth` the recomputed offset is 0.  With prior
offset 50, cursor extent 60 and total extent 100 (all in the claim's
quantified range, and `100 < avail_w = 580`), the recompute returns 50,
not 0. -/
theorem scroll_invariant_counterexample :
    (0 : Int) ≤ 50 ∧ (0 : Int) ≤ 60 ∧ (60 : Int) ≤ 100 ∧
    (100 : Int) < avail_w ∧
    recomputeScroll 50 60 100 = 50 ∧ recomputeScroll 50 60 100 ≠ 0 := by
  decide

/-- C4 (amended): after every scroll recompute,
`cursorExtent - scrollOffset` lies within `[0, avail_w]` —
unconditionally, in particular also when `totalExtent < avail_w` — and
the resulting offset lies within `[0, totalExtent]`; when
`totalExtent < avail_w` the offset is not necessarily 0. -/
theorem scroll_recompute_keeps_cursor_visible (s c t : Int)
    (hs : 0 ≤ s) (hc : 0 ≤ c) (hct : c ≤ t) :
    0 ≤ c - recomputeScroll s c t ∧ c - recomputeScroll s c t ≤ avail_w ∧
    0 ≤ recomputeScroll s c t ∧ recomputeScroll s c t ≤ t := by
  simp only [recomputeScroll, avail_w, win_width]
  split_ifs <;> omega

/-- Witness for C4 (amended), at the very input that refutes the
original claim: the cursor stays visible and the offset stays in
range. -/
theorem scroll_recompute_keeps_cursor_visible_witness :
    0 ≤ (60 : Int) - recomputeScroll 50 60 100 ∧
    (60 : Int) - recomputeScroll 50 60 100 ≤ avail_w ∧
    0 ≤ recomputeScroll 50 60 100 ∧ recomputeScroll 50 60 100 ≤ 100 :=
  scroll_recompute_keeps_cursor_visible 50 60 100
    (by decide) (by decide) (by decide)

/-- C5: every event-dispatch step — and every sequence of steps —
preserves the buffer invariant `0 ≤ cursor ≤ inlen < input_max` with the
terminator at `input[inlen]`; in particular the cursor never leaves
`[0, inlen]` for any number of events from any valid state. -/
theorem dispatch_preserves_invariant (m : List Nat → Int) (st : LState)
    (hinv : Inv st) :
    (∀ e, Inv (step m st e).1) ∧
    (∀ es, Inv (runEvents m st es) ∧
      (runEvents m st es).cursor ≤ (runEvents m st es).inlen) := by
  refine ⟨fun e => step_preserves_inv m st e hinv, fun es => ?_⟩
  have h := runEvents_preserves_inv m st es hinv
  exact ⟨h, h.2.1⟩

/-- Witness for C5: the invariant survives typing a byte, moving left
twice (once against the lower bound), moving right, and backspacing,
starting at the fresh state. -/
theorem dispatch_preserves_invariant_witness :
    Inv (runEvents (fun _ => 0) initState
      [Event.keyPress (Key.other [104]), Event.keyPress Key.left,
       Event.keyPress Key.left, Event.keyPress Key.right,
       Event.keyPress Key.backspace]) :=
  ((dispatch_preserves_invariant (fun _ => 0) initState (by decide)).2
    [Event.keyPress (Key.other [104]), Event.keyPress Key.left,
     Event.keyPress Key.left, Event.keyPress Key.right,
     Event.keyPress Key.backspace]).1

/-- C6: backspace is a no-op (buffer, length, cursor, scroll, effects
all unchanged) when `cursor = 0`; otherwise it removes exactly the byte
at `cursor - 1`, shifts the tail (with the terminator) left by one, and
decrements cursor and length by one. -/
theorem backspace_event_spec (m : List Nat → Int) (st : LState)
    (hinv : Inv st) :
    (st.cursor = 0 →
      step m st (Event.keyPress Key.backspace) = (st, [])) ∧
    (0 < st.cursor →
      (step m st (Event.keyPress Key.backspace)).1.cursor
          = st.cursor - 1 ∧
      (step m st (Event.keyPress Key.backspace)).1.inlen
          = st.inlen - 1 ∧
      (step m st (Event.keyPress Key.backspace)).1.input.take
          (st.inlen - 1)
        = st.input.take (st.cursor - 1)
            ++ (st.input.take st.inlen).drop st.cursor ∧
      (step m st (Event.keyPress Key.backspace)).1.input[
          st.inlen - 1]? = some 0 ∧
      (step m st (Event.keyPress Key.backspace)).1.mode = st.mode ∧
      (step m st (Event.keyPress Key.backspace)).2 = []) := by
  obtain ⟨hlen, hcn, hn, hterm⟩ := hinv
  constructor
  · intro h
    simp only [step, keyStep]
    rw [if_neg (by omega)]
  · intro h
    obtain ⟨hL, hT, hG⟩ :=
      deleteOp_spec st.input st.cursor st.inlen hlen h hcn hn
    have hc := deleteOp_counters st.input st.cursor st.inlen h
    simp only [step, keyStep]
    rw [if_pos h]
    refine ⟨?_, ?_, ?_, ?_, rfl, rfl⟩
    · dsimp only; rw [hc]
    · dsimp only; rw [hc]
    · dsimp only; exact hT
    · dsimp only; rw [hG]; exact hterm

/-- Witness for C6: backspacing a two-byte buffer "hi" with the cursor
at the end deletes the second byte, leaving content "h". -/
theorem backspace_event_spec_witness :
    (step (fun _ => 0)
      { input := [104, 105] ++ List.replicate 254 0, cursor := 2,
        inlen := 2, scrollX := 0, focused := true, mode := Mode.running }
      (Event.keyPress Key.backspace)).1.cursor = 1 ∧
    (step (fun _ => 0)
      { input := [104, 105] ++ List.replicate 254 0, cursor := 2,
        inlen := 2, scrollX := 0, focused := true, mode := Mode.running }
      (Event.keyPress Key.backspace)).1.inlen = 1 ∧
    (step (fun _ => 0)
      { input := [104, 105] ++ List.replicate 254 0, cursor := 2,
        inlen := 2, scrollX := 0, focused := true, mode := Mode.running }
      (Event.keyPress Key.backspace)).1.input.take 1 = [104] := by
  have h := backspace_event_spec (fun _ => 0)
    { input := [104, 105] ++ List.replicate 254 0, cursor := 2,
      inlen := 2, scrollX := 0, focused := true, mode := Mode.running }
    (by decide)
  obtain ⟨hc, hi, ht, hg, hm, he⟩ := h.2 (by decide)
  refine ⟨hc, hi, ?_⟩
  rw [show (1 : Nat) = 2 - 1 from rfl, ht]
  decide

/-- C7: on Enter with an empty buffer, the session is confirmed with no
effect; on Enter with non-empty (NUL-free) contents, exactly the buffer
contents are printed as one stdout line, then the command-execution
collaborator is invoked with exactly that text, and the session is
confirmed. -/
theorem enter_event_spec (m : List Nat → Int) (st : LState) (hinv : Inv st)
    (hz : ∀ x ∈ st.input.take st.inlen, x ≠ 0) :
    (st.inlen = 0 →
      step m st (Event.keyPress Key.enter)
        = ({ st with mode := Mode.confirmed }, [])) ∧
    (0 < st.inlen →
      (step m st (Event.keyPress Key.enter)).1.mode = Mode.confirmed ∧
      (step m st (Event.keyPress Key.enter)).2
        = [Effect.printLine (st.input.take st.inlen),
           Effect.execCmd (st.input.take st.inlen)]) := by
  obtain ⟨hlen, hcn, hn, hterm⟩ := hinv
  have hlt : st.inlen < st.input.length := by rw [hlen]; exact hn
  constructor
  · intro h0
    simp only [step, keyStep]
    rw [if_neg (by omega)]
  · intro h0
    have htext : cstring (st.input.set st.inlen 0) = st.input.take st.inlen :=
      cstring_set_terminator st.input st.inlen hlt hz
    have hne : st.input.take st.inlen ≠ [] := by
      have hl : (st.input.take st.inlen).length = st.inlen := by
        simp [List.length_take]; omega
      intro hcon
      rw [hcon] at hl
      simp at hl
      omega
    simp only [step, keyStep]
    rw [if_pos h0]
    refine ⟨rfl, ?_⟩
    dsimp only
    rw [htext]
    simp [run_command, hne]

/-- Witness for C7: Enter on a buffer holding "ls" prints the line "ls"
and then executes "ls", confirming the session. -/
theorem enter_event_spec_witness :
    (step (fun _ => 0)
      { input := [108, 115] ++ List.replicate 254 0, cursor := 2,
        inlen := 2, scrollX := 0, focused := true, mode := Mode.running }
      (Event.keyPress Key.enter)).1.mode = Mode.confirmed ∧
    (step (fun _ => 0)
      { input := [108, 115] ++ List.replicate 254 0, cursor := 2,
        inlen := 2, scrollX := 0, focused := true, mode := Mode.running }
      (Event.keyPress Key.enter)).2
      = [Effect.printLine [108, 115], Effect.execCmd [108, 115]] := by
  have h := enter_event_spec (fun _ => 0)
    { input := [108, 115] ++ List.replicate 254 0, cursor := 2,
      inlen := 2, scrollX := 0, focused := true, mode := Mode.running }
    (by decide) (by decide)
  obtain ⟨hm, he⟩ := h.2 (by decide)
  exact ⟨hm, he⟩

/-- C8: Escape in any state cancels the session, leaving the buffer and
scroll untouched and producing no effect — in particular the
command-execution collaborator is never invoked and nothing is printed
on the cancel path. -/
theorem escape_cancels_without_effects (m : List Nat → Int) (st : LState) :
    step m st (Event.keyPress Key.escape)
      = ({ st with mode := Mode.cancelled }, []) := rfl

/-- C9 counterexample: with the display, font and draw-surface calls
all succeeding but `XftColorAllocName` failing for the foreground
color, startup aborts — a color-allocation failure that is fatal,
contradicting the claim that only display-open, font-load and
draw-surface failures are fatal. -/
theorem color_fatal_counterexample :
    ({ displayOk := true, parseOkBg := true, allocOkBg := true,
       pixelBg := 1, parseOkFg := true, allocOkFg := true, pixelFg := 2,
       fontOk := true, xftAllocOk := false, drawCreateOk := true,
       blackPixel := 0 } : XEnv).displayOk = true ∧
    ({ displayOk := true, parseOkBg := true, allocOkBg := true,
       pixelBg := 1, parseOkFg := true, allocOkFg := true, pixelFg := 2,
       fontOk := true, xftAllocOk := false, drawCreateOk := true,
       blackPixel := 0 } : XEnv).fontOk = true ∧
    ({ displayOk := true, parseOkBg := true, allocOkBg := true,
       pixelBg := 1, parseOkFg := true, allocOkFg := true, pixelFg := 2,
       fontOk := true, xftAllocOk := false, drawCreateOk := true,
       blackPixel := 0 } : XEnv).drawCreateOk = true ∧
    startup ({ displayOk := true, parseOkBg := true, allocOkBg := true,
               pixelBg := 1, parseOkFg := true, allocOkFg := true,
               pixelFg := 2, fontOk := true, xftAllocOk := false,
               drawCreateOk := true, blackPixel := 0 } : XEnv)
      = Except.error StartupError.noXftColor := by
  exact ⟨rfl, rfl, rfl, rfl⟩

/-- C9 (amended): failure of either `XParseColor`/`XAllocColor` lookup
(window background and border) never aborts startup — each degrades to
the black pixel with a warning — but the `XftColorAllocName` allocation
of the foreground color is fatal when it fails, alongside display-open,
font-load and draw-surface failures. -/
theorem color_failure_amended (env : XEnv)
    (hd : env.displayOk = true) (hf : env.fontOk = true)
    (hx : env.xftAllocOk = true) (hw : env.drawCreateOk = true) :
    startup env = Except.ok
      { bg := (parse_color env.blackPixel env.parseOkBg
                env.allocOkBg env.pixelBg).1,
        border := (parse_color env.blackPixel env.parseOkFg
                env.allocOkFg env.pixelFg).1,
        bgWarned := (parse_color env.blackPixel env.parseOkBg
                env.allocOkBg env.pixelBg).2,
        borderWarned := (parse_color env.blackPixel env.parseOkFg
                env.allocOkFg env.pixelFg).2 } ∧
    ((env.parseOkBg = false ∨ env.allocOkBg = false) →
      parse_color env.blackPixel env.parseOkBg env.allocOkBg env.pixelBg
        = (env.blackPixel, true)) ∧
    ((env.parseOkFg = false ∨ env.allocOkFg = false) →
      parse_color env.blackPixel env.parseOkFg env.allocOkFg env.pixelFg
        = (env.blackPixel, true)) := by
  refine ⟨?_, ?_, ?_⟩
  · unfold startup
    rw [hd, hf, hx, hw]
    rfl
  · intro h
    unfold parse_color
    rcases h with h | h <;> rw [h] <;> cases hb : env.parseOkBg <;> rfl
  · intro h
    unfold parse_color
    rcases h with h | h <;> rw [h] <;> cases hb : env.parseOkFg <;> rfl

/-- Witness for C9 (amended): with both `XParseColor` lookups failing
but the Xft allocation succeeding, startup completes, both pixels
degrade to black, and both lookups warn. -/
theorem color_failure_amended_witness :
    startup ({ displayOk := true, parseOkBg := false, allocOkBg := true,
               pixelBg := 7, parseOkFg := false, allocOkFg := true,
               pixelFg := 9, fontOk := true, xftAllocOk := true,
               drawCreateOk := true, blackPixel := 3 } : XEnv)
      = Except.ok { bg := 3, border := 3, bgWarned := true,
                    borderWarned := true } := by
  have h := color_failure_amended
    { displayOk := true, parseOkBg := false, allocOkBg := true,
      pixelBg := 7, parseOkFg := false, allocOkFg := true, pixelFg := 9,
      fontOk := true, xftAllocOk := true, drawCreateOk := true,
      blackPixel := 3 } rfl rfl rfl rfl
  exact h.1

/-- C10: a FocusOut event is completely ignored: buffer, cursor,
length, scroll, focus flag and mode are all unchanged and no effect is
produced (the `running = 0` in that branch is commented out in the
source). -/
theorem focus_out_ignored (m : List Nat → Int) (st : LState) :
    step m st Event.focusOut = (st, []) := rfl

end Castor
